import Mathlib

/-!
Verification of the ClusterHUD polling/aggregation component
(`presto-ui/src/components/ClusterHUD.jsx`).

The component polls a cluster-status endpoint, derives per-second rates
from cumulative counters, appends samples to bounded history series, and
throttles chart redraws.  We embed the JavaScript numeric semantics the
component relies on (IEEE-style infinities and NaN over exact rationals,
`null`/`undefined` coercion), the history helpers it imports from
`presto-ui/src/utils`, and the state transitions of `refreshLoop`,
`resetTimer` and the update effect.
-/

/-- A JavaScript runtime value as it flows through the component:
a finite number (modelled exactly as a rational), the two infinities,
`NaN`, `undefined`, or `null`. -/
inductive JVal where
  | num (q : ℚ)
  | posInf
  | negInf
  | nan
  | undef
  | null
deriving DecidableEq, Repr

/-- JavaScript `ToNumber` coercion applied by arithmetic operators:
`null` becomes `0`, `undefined` becomes `NaN`; numeric values unchanged. -/
def JVal.toNumber : JVal → JVal
  | JVal.undef => JVal.nan
  | JVal.null => JVal.num 0
  | v => v

/-- A value is finite when it is an actual number (not `±Infinity`,
`NaN`, `undefined` or `null`). -/
def JVal.isFinite : JVal → Bool
  | JVal.num _ => true
  | _ => false

/-- A value that a sparkline treats as a missing sample: `NaN` or
`undefined`. -/
def JVal.isNoData : JVal → Bool
  | JVal.nan => true
  | JVal.undef => true
  | _ => false

/-- JavaScript binary `-` on runtime values. -/
def jsSub (a b : JVal) : JVal :=
  match a.toNumber, b.toNumber with
  | JVal.nan, _ => JVal.nan
  | _, JVal.nan => JVal.nan
  | JVal.num x, JVal.num y => JVal.num (x - y)
  | JVal.posInf, JVal.num _ => JVal.posInf
  | JVal.negInf, JVal.num _ => JVal.negInf
  | JVal.num _, JVal.posInf => JVal.negInf
  | JVal.num _, JVal.negInf => JVal.posInf
  | JVal.posInf, JVal.negInf => JVal.posInf
  | JVal.negInf, JVal.posInf => JVal.negInf
  | _, _ => JVal.nan

/-- JavaScript binary `+` (numeric case) on runtime values. -/
def jsAdd (a b : JVal) : JVal :=
  match a.toNumber, b.toNumber with
  | JVal.nan, _ => JVal.nan
  | _, JVal.nan => JVal.nan
  | JVal.num x, JVal.num y => JVal.num (x + y)
  | JVal.posInf, JVal.negInf => JVal.nan
  | JVal.negInf, JVal.posInf => JVal.nan
  | JVal.posInf, _ => JVal.posInf
  | JVal.negInf, _ => JVal.negInf
  | JVal.num _, JVal.posInf => JVal.posInf
  | JVal.num _, JVal.negInf => JVal.negInf
  | _, _ => JVal.nan

/-- JavaScript binary `*` on runtime values. -/
def jsMul (a b : JVal) : JVal :=
  match a.toNumber, b.toNumber with
  | JVal.nan, _ => JVal.nan
  | _, JVal.nan => JVal.nan
  | JVal.num x, JVal.num y => JVal.num (x * y)
  | JVal.posInf, JVal.num y =>
      if 0 < y then JVal.posInf else if y < 0 then JVal.negInf else JVal.nan
  | JVal.negInf, JVal.num y =>
      if 0 < y then JVal.negInf else if y < 0 then JVal.posInf else JVal.nan
  | JVal.num x, JVal.posInf =>
      if 0 < x then JVal.posInf else if x < 0 then JVal.negInf else JVal.nan
  | JVal.num x, JVal.negInf =>
      if 0 < x then JVal.negInf else if x < 0 then JVal.posInf else JVal.nan
  | JVal.posInf, JVal.posInf => JVal.posInf
  | JVal.negInf, JVal.negInf => JVal.posInf
  | JVal.posInf, JVal.negInf => JVal.negInf
  | JVal.negInf, JVal.posInf => JVal.negInf
  | _, _ => JVal.nan

/-- JavaScript binary `/` on runtime values: division of a nonzero
finite number by zero yields a signed infinity, `0 / 0` yields `NaN`. -/
def jsDiv (a b : JVal) : JVal :=
  match a.toNumber, b.toNumber with
  | JVal.nan, _ => JVal.nan
  | _, JVal.nan => JVal.nan
  | JVal.num x, JVal.num y =>
      if y = 0 then (if 0 < x then JVal.posInf else if x < 0 then JVal.negInf else JVal.nan)
      else JVal.num (x / y)
  | JVal.posInf, JVal.num y => if 0 ≤ y then JVal.posInf else JVal.negInf
  | JVal.negInf, JVal.num y => if 0 ≤ y then JVal.negInf else JVal.posInf
  | JVal.num _, JVal.posInf => JVal.num 0
  | JVal.num _, JVal.negInf => JVal.num 0
  | _, _ => JVal.nan

/-- The most recent `n` elements of a list, in order (the trim applied
by the history helpers). -/
def lastN {α : Type} (n : ℕ) (l : List α) : List α :=
  (l.reverse.take n).reverse

/-- Modelled from the spec: `addToHistory` lives in
`presto-ui/src/utils`, which is not part of the given sources.  Spec
§4.1, Raw mode: the new series is the previous series with the raw value
appended, then trimmed to the most recent `maxLength` samples (oldest
dropped first). -/
def addToHistory (L : ℕ) (v : JVal) (s : List JVal) : List JVal :=
  lastN L (s ++ [v])

/-- Modelled from the spec: `addExponentiallyWeightedToHistory` lives in
`presto-ui/src/utils`, which is not part of the given sources.  Spec
§4.1, ExponentiallyWeighted mode: an empty series takes the raw value
unsmoothed; otherwise the appended sample is
`alpha * rawValue + (1 - alpha) * lastSample`; the result is then
trimmed to the most recent `maxLength` samples. -/
def addExponentiallyWeightedToHistory (α : ℚ) (L : ℕ) (v : JVal) (s : List JVal) : List JVal :=
  match s.getLast? with
  | none => lastN L (s ++ [v])
  | some last => lastN L (s ++ [jsAdd (jsMul (JVal.num α) v) (jsMul (JVal.num (1 - α)) last)])

/-- The fields of the `/v1/cluster` response (`clusterState`) that
`refreshLoop` reads, plus `reservedMemoryBytes`, the name the snapshot
data contract gives to the reserved-memory gauge.  Kept as raw runtime
values: a field the endpoint does not supply reads as `undefined`. -/
structure ClusterState where
  runningQueries : JVal
  queuedQueries : JVal
  blockedQueries : JVal
  activeWorkers : JVal
  runningDrivers : JVal
  reservedMemory : JVal
  reservedMemoryBytes : JVal
  totalInputRows : JVal
  totalInputBytes : JVal
  totalCpuTimeSecs : JVal
deriving DecidableEq, Repr

/-- The component state of `ClusterHUD`: the nine history series, the
render/refresh timestamps (integer milliseconds), and the previous
snapshot's counters.  `lastInputRows`/`lastInputBytes`/`lastCpuTime`
start as `null`, matching `useState(null)`. -/
structure HUDState where
  runningQueries : List JVal
  queuedQueries : List JVal
  blockedQueries : List JVal
  activeWorkers : List JVal
  runningDrivers : List JVal
  reservedMemory : List JVal
  rowInputRate : List JVal
  byteInputRate : List JVal
  perWorkerCpuTimeRate : List JVal
  lastRender : Option ℤ
  lastRefresh : Option ℤ
  lastInputRows : JVal
  lastInputBytes : JVal
  lastCpuTime : JVal
deriving DecidableEq, Repr

/-- The initial component state: every series empty, every timestamp
and previous counter unset. -/
def initState : HUDState :=
  { runningQueries := []
    queuedQueries := []
    blockedQueries := []
    activeWorkers := []
    runningDrivers := []
    reservedMemory := []
    rowInputRate := []
    byteInputRate := []
    perWorkerCpuTimeRate := []
    lastRender := none
    lastRefresh := none
    lastInputRows := JVal.null
    lastInputBytes := JVal.null
    lastCpuTime := JVal.null }

/-- `secsSinceRefresh` of `refreshLoop`: `(Date.now() - lastRefresh) / 1000.0`. -/
def secsSinceRefresh (t0 now : ℤ) : JVal :=
  JVal.num (((now : ℚ) - (t0 : ℚ)) / 1000)

/-- The raw row rate `rowsInputSinceRefresh / secsSinceRefresh` fed to
the smoothing helper (ClusterHUD.jsx line 72). -/
def rowRateRaw (c : HUDState) (t0 now : ℤ) (cs : ClusterState) : JVal :=
  jsDiv (jsSub cs.totalInputRows c.lastInputRows) (secsSinceRefresh t0 now)

/-- The raw byte rate `bytesInputSinceRefresh / secsSinceRefresh`
(ClusterHUD.jsx line 73). -/
def byteRateRaw (c : HUDState) (t0 now : ℤ) (cs : ClusterState) : JVal :=
  jsDiv (jsSub cs.totalInputBytes c.lastInputBytes) (secsSinceRefresh t0 now)

/-- The raw per-worker CPU rate
`(cpuTimeSinceRefresh / clusterState.activeWorkers) / secsSinceRefresh`
(ClusterHUD.jsx line 74). -/
def perWorkerCpuRateRaw (c : HUDState) (t0 now : ℤ) (cs : ClusterState) : JVal :=
  jsDiv (jsDiv (jsSub cs.totalCpuTimeSecs c.lastCpuTime) cs.activeWorkers) (secsSinceRefresh t0 now)

/-- Lines 63-75 of `refreshLoop`: the three rate arrays are precomputed
from the values captured by the callback closure `c`; when
`lastRefresh` is `null` they stay the fresh empty arrays. -/
def newRates (α : ℚ) (L : ℕ) (c : HUDState) (now : ℤ) (cs : ClusterState) :
    List JVal × List JVal × List JVal :=
  match c.lastRefresh with
  | none => ([], [], [])
  | some t0 =>
      (addExponentiallyWeightedToHistory α L (rowRateRaw c t0 now cs) c.rowInputRate,
       addExponentiallyWeightedToHistory α L (byteRateRaw c t0 now cs) c.byteInputRate,
       addExponentiallyWeightedToHistory α L (perWorkerCpuRateRaw c t0 now cs) c.perWorkerCpuTimeRate)

/-- The success callback of `$.get` in `refreshLoop` (lines 61-96):
point-in-time series are updated functionally from the then-current
store state `s` (the `prev => addToHistory(..., prev)` updaters), while
the three rate series are overwritten with the arrays precomputed from
the closure-captured state `c`; the previous-counter fields and
`lastRefresh` are set from the fetched snapshot and the current time. -/
def pollSuccess (α : ℚ) (L : ℕ) (c s : HUDState) (now : ℤ) (cs : ClusterState) : HUDState :=
  let r := newRates α L c now cs
  { runningQueries := addToHistory L cs.runningQueries s.runningQueries
    queuedQueries := addToHistory L cs.queuedQueries s.queuedQueries
    blockedQueries := addToHistory L cs.blockedQueries s.blockedQueries
    activeWorkers := addToHistory L cs.activeWorkers s.activeWorkers
    runningDrivers := addExponentiallyWeightedToHistory α L cs.runningDrivers s.runningDrivers
    reservedMemory := addExponentiallyWeightedToHistory α L cs.reservedMemory s.reservedMemory
    rowInputRate := r.1
    byteInputRate := r.2.1
    perWorkerCpuTimeRate := r.2.2
    lastRender := s.lastRender
    lastRefresh := some now
    lastInputRows := cs.totalInputRows
    lastInputBytes := cs.totalInputBytes
    lastCpuTime := cs.totalCpuTimeSecs }

/-- The pending-timer bookkeeping around `timeoutIdRef`: the multiset of
timers currently pending in the runtime (as id-delay pairs), the handle
stored in `timeoutIdRef.current`, and a counter supplying fresh ids. -/
structure TimerSys where
  pending : List (ℕ × ℕ)
  current : Option ℕ
  nextId : ℕ
deriving DecidableEq, Repr

/-- `clearTimeout(h)`: removes the timer with handle `h` from the
pending set; a no-op when `h` is `null` or no longer pending. -/
def clearPending (h : Option ℕ) (p : List (ℕ × ℕ)) : List (ℕ × ℕ) :=
  match h with
  | none => p
  | some i => p.filter (fun e => e.1 != i)

/-- `resetTimer` (ClusterHUD.jsx lines 50-57): clear the stored handle,
then `setTimeout(refreshLoop, 1000)` and store the new handle. -/
def resetTimer (ts : TimerSys) : TimerSys :=
  { pending := clearPending ts.current ts.pending ++ [(ts.nextId, 1000)]
    current := some ts.nextId
    nextId := ts.nextId + 1 }

/-- The timer state before any scheduling: nothing pending, no stored
handle. -/
def initTimer : TimerSys :=
  { pending := [], current := none, nextId := 0 }

/-- The timer-affecting events of the component's lifetime. -/
inductive TEvent where
  | reset
  | enter
  | fire (i : ℕ)
  | cleanup
deriving DecidableEq, Repr

/-- One timer-affecting transition: `reset` is a `resetTimer` call
(after a poll completes, successfully or not); `enter` is the
`clearTimeout` at the top of `refreshLoop` (line 60); `fire i` is
pending timer `i` firing (the runtime removes it) and its callback
entering `refreshLoop`; `cleanup` is the unmount effect's
`clearTimeout` (line 109). -/
def tstep (ts : TimerSys) (e : TEvent) : TimerSys :=
  match e with
  | TEvent.reset => resetTimer ts
  | TEvent.enter => { ts with pending := clearPending ts.current ts.pending }
  | TEvent.fire i =>
      { ts with pending := clearPending ts.current (ts.pending.filter (fun en => en.1 != i)) }
  | TEvent.cleanup => { ts with pending := clearPending ts.current ts.pending }

/-- Run a sequence of timer events from a starting state. -/
def trun (evs : List TEvent) (ts : TimerSys) : TimerSys :=
  evs.foldl tstep ts

/-- Component state plus timer state, for the poll-outcome transitions. -/
structure SysState where
  hud : HUDState
  timers : TimerSys
deriving DecidableEq, Repr

/-- The `.fail` handler of `$.get` (lines 98-100): only `resetTimer()`
runs; no component state is touched. -/
def failStep (st : SysState) : SysState :=
  { st with timers := resetTimer st.timers }

/-- A successful poll at time `now` with snapshot `cs`, followed by the
`resetTimer()` call of the success callback (line 96). -/
def succStep (α : ℚ) (L : ℕ) (st : SysState) (now : ℤ) (cs : ClusterState) : SysState :=
  { hud := pollSuccess α L st.hud st.hud now cs
    timers := resetTimer st.timers }

/-- The render-throttle test of the update effect (line 116):
`lastRender === null || (Date.now() - lastRender) >= 1000`. -/
def shouldRender (lastRender : Option ℤ) (now : ℤ) : Bool :=
  match lastRender with
  | none => true
  | some t => decide (1000 ≤ now - t)

/-- The update effect's action on `lastRender`: on a permitted render
the sparklines are redrawn and `setLastRender(renderTimestamp)` records
the current time; otherwise `lastRender` is left unchanged. -/
def renderCheck (lastRender : Option ℤ) (now : ℤ) : Option ℤ :=
  if shouldRender lastRender now then some now else lastRender

/-- A baseline snapshot used to instantiate theorems on concrete
inputs (the §8 scenario's poll#1 values). -/
def baseSnapshot : ClusterState :=
  { runningQueries := JVal.num 3
    queuedQueries := JVal.num 1
    blockedQueries := JVal.num 0
    activeWorkers := JVal.num 2
    runningDrivers := JVal.num 40
    reservedMemory := JVal.num 1000000
    reservedMemoryBytes := JVal.num 1000000
    totalInputRows := JVal.num 1000
    totalInputBytes := JVal.num 500000
    totalCpuTimeSecs := JVal.num 10 }


/-- A sequence of Raw-mode appends to a history series, oldest first. -/
def appendAll (L : ℕ) (vs : List JVal) (s : List JVal) : List JVal :=
  vs.foldl (fun acc v => addToHistory L v acc) s

/-- The timer invariant maintained by the component: either nothing is
pending, or exactly one timer is pending and its handle is the one
stored in `timeoutIdRef.current`. -/
def InvT (ts : TimerSys) : Prop :=
  ts.pending = [] ∨ ∃ i d, ts.pending = [(i, d)] ∧ ts.current = some i

/-- Component state after the scenario's poll#1: previous counters
`totalInputRows = 1000`, `totalInputBytes = 500000`,
`totalCpuTimeSecs = 10` recorded at time 0. -/
def c1hud : HUDState :=
  { initState with
    lastRefresh := some 0
    lastInputRows := JVal.num 1000
    lastInputBytes := JVal.num 500000
    lastCpuTime := JVal.num 10 }

/-- The scenario's poll#2 snapshot: `totalInputRows = 1500`,
`totalInputBytes = 700000`, `totalCpuTimeSecs = 12`. -/
def c1cs : ClusterState :=
  { baseSnapshot with
    totalInputRows := JVal.num 1500
    totalInputBytes := JVal.num 700000
    totalCpuTimeSecs := JVal.num 12 }

/-- Previous-poll state for the zero-worker scenario: counters recorded
at time 0. -/
def hud2 : HUDState :=
  { initState with
    lastRefresh := some 0
    lastInputRows := JVal.num 1000
    lastInputBytes := JVal.num 500000
    lastCpuTime := JVal.num 10 }

/-- A snapshot reporting zero active workers with the counters still
advancing. -/
def cs2 : ClusterState :=
  { baseSnapshot with
    activeWorkers := JVal.num 0
    totalInputRows := JVal.num 1500
    totalInputBytes := JVal.num 700000
    totalCpuTimeSecs := JVal.num 12 }

/-- Previous-poll state whose timestamp coincides with the next poll's
time (elapsed time zero). -/
def hud3 : HUDState :=
  { initState with
    lastRefresh := some 1000
    lastInputRows := JVal.num 1000
    lastInputBytes := JVal.num 500000
    lastCpuTime := JVal.num 10 }

/-- A snapshot with advanced counters, polled at the same instant as
the previous poll. -/
def cs3 : ClusterState :=
  { baseSnapshot with
    totalInputRows := JVal.num 1500
    totalInputBytes := JVal.num 700000
    totalCpuTimeSecs := JVal.num 12 }

/-- A snapshot that supplies the reserved-memory gauge only under the
data contract's name `reservedMemoryBytes`: the field named
`reservedMemory` reads as `undefined`. -/
def cs10 : ClusterState :=
  { baseSnapshot with reservedMemory := JVal.undef }

theorem lastN_length {α : Type} (n : ℕ) (l : List α) : (lastN n l).length = min n l.length := by
  simp [lastN]

theorem lastN_nil {α : Type} (n : ℕ) : lastN n ([] : List α) = [] := by
  simp [lastN]

theorem lastN_singleton {α : Type} {n : ℕ} (h : 1 ≤ n) (v : α) : lastN n [v] = [v] := by
  cases n with
  | zero => omega
  | succ m => simp [lastN]

theorem getLast?_lastN_append {α : Type} {L : ℕ} (h : 1 ≤ L) (xs : List α) (v : α) :
    (lastN L (xs ++ [v])).getLast? = some v := by
  cases L with
  | zero => omega
  | succ m => simp [lastN, List.getLast?_reverse]

theorem lastN_append_lastN {α : Type} (L : ℕ) (xs : List α) (v : α) :
    lastN L (lastN L xs ++ [v]) = lastN L (xs ++ [v]) := by
  simp only [lastN, List.reverse_append, List.reverse_reverse, List.reverse_cons,
    List.reverse_nil, List.nil_append, List.singleton_append]
  cases L with
  | zero => simp
  | succ m =>
      simp only [List.take_succ_cons, List.take_take]
      rw [Nat.min_eq_left (Nat.le_succ m)]

theorem addToHistory_length (L : ℕ) (v : JVal) (s : List JVal) :
    (addToHistory L v s).length = min L (s.length + 1) := by
  simp [addToHistory, lastN_length]

theorem addExponentiallyWeightedToHistory_length (α : ℚ) (L : ℕ) (v : JVal) (s : List JVal) :
    (addExponentiallyWeightedToHistory α L v s).length = min L (s.length + 1) := by
  cases h : s.getLast? <;> simp [addExponentiallyWeightedToHistory, h, lastN_length]

theorem appendAll_lastN (L : ℕ) (vs : List JVal) :
    ∀ xs : List JVal, appendAll L vs (lastN L xs) = lastN L (xs ++ vs) := by
  induction vs with
  | nil => intro xs; simp [appendAll]
  | cons v tl ih =>
      intro xs
      have h1 : appendAll L (v :: tl) (lastN L xs)
          = appendAll L tl (lastN L (lastN L xs ++ [v])) := rfl
      rw [h1, lastN_append_lastN]
      have h2 := ih (xs ++ [v])
      rw [h2, List.append_assoc]
      rfl

theorem jsSub_num (x y : ℚ) : jsSub (JVal.num x) (JVal.num y) = JVal.num (x - y) := rfl

theorem jsDiv_num_of_ne (x : ℚ) {y : ℚ} (h : y ≠ 0) :
    jsDiv (JVal.num x) (JVal.num y) = JVal.num (x / y) := by
  simp [jsDiv, JVal.toNumber, h]

theorem jsAdd_nan (x : JVal) : jsAdd JVal.nan x = JVal.nan := by
  cases x <;> rfl

theorem jsMul_num_undef (a : ℚ) : jsMul (JVal.num a) JVal.undef = JVal.nan := rfl

theorem jsDiv_num_zero_cases (d : ℚ) :
    jsDiv (JVal.num d) (JVal.num 0) = JVal.posInf ∨
    jsDiv (JVal.num d) (JVal.num 0) = JVal.negInf ∨
    jsDiv (JVal.num d) (JVal.num 0) = JVal.nan := by
  rcases lt_trichotomy 0 d with h | h | h
  · left; simp [jsDiv, JVal.toNumber, h]
  · right; right; simp [jsDiv, JVal.toNumber, h]
  · right; left
    simp [jsDiv, JVal.toNumber, h, not_lt_of_gt h, asymm h]

theorem isFinite_jsDiv_nonFin (v : JVal) (e : ℚ)
    (h : v = JVal.posInf ∨ v = JVal.negInf ∨ v = JVal.nan) :
    (jsDiv v (JVal.num e)).isFinite = false := by
  rcases h with h | h | h <;> subst h
  · by_cases he : 0 ≤ e <;> simp [jsDiv, JVal.toNumber, he, JVal.isFinite]
  · by_cases he : 0 ≤ e <;> simp [jsDiv, JVal.toNumber, he, JVal.isFinite]
  · rfl

/-- Claim C6: for every sequence of N appends in Raw mode to a history
buffer of capacity `maxLength = L`, the resulting series has length
`min(N, L)` and equals the last `L` appended raw values in append order
(oldest evicted first); moreover `length ≤ maxLength` holds after every
append. -/
theorem claim_C6 (L : ℕ) (vs : List JVal) :
    appendAll L vs [] = lastN L vs ∧
    (appendAll L vs []).length = min vs.length L ∧
    ∀ (s : List JVal) (v : JVal), (addToHistory L v s).length ≤ L := by
  have h0 : appendAll L vs [] = lastN L vs := by
    have h := appendAll_lastN L vs []
    rw [lastN_nil] at h
    simpa using h
  refine ⟨h0, ?_, ?_⟩
  · rw [h0, lastN_length, Nat.min_comm]
  · intro s v
    rw [addToHistory_length]
    exact Nat.min_le_left _ _

/-- Claim C4: on the first successful poll (previous snapshot absent),
no rate is computed: each of the three rate series stays empty, while
each of the six point-in-time series receives exactly one sample (the
fetched snapshot's value). -/
theorem claim_C4 (α : ℚ) (L : ℕ) (now : ℤ) (cs : ClusterState) (hL : 1 ≤ L) :
    (pollSuccess α L initState initState now cs).rowInputRate = [] ∧
    (pollSuccess α L initState initState now cs).byteInputRate = [] ∧
    (pollSuccess α L initState initState now cs).perWorkerCpuTimeRate = [] ∧
    (pollSuccess α L initState initState now cs).runningQueries = [cs.runningQueries] ∧
    (pollSuccess α L initState initState now cs).queuedQueries = [cs.queuedQueries] ∧
    (pollSuccess α L initState initState now cs).blockedQueries = [cs.blockedQueries] ∧
    (pollSuccess α L initState initState now cs).activeWorkers = [cs.activeWorkers] ∧
    (pollSuccess α L initState initState now cs).runningDrivers = [cs.runningDrivers] ∧
    (pollSuccess α L initState initState now cs).reservedMemory = [cs.reservedMemory] := by
  have hsing : ∀ v : JVal, lastN L [v] = [v] := fun v => lastN_singleton hL v
  refine ⟨rfl, rfl, rfl, ?_, ?_, ?_, ?_, ?_, ?_⟩
  · exact hsing cs.runningQueries
  · exact hsing cs.queuedQueries
  · exact hsing cs.blockedQueries
  · exact hsing cs.activeWorkers
  · exact hsing cs.runningDrivers
  · exact hsing cs.reservedMemory

theorem claim_C4_witness :
    (pollSuccess (1/5) 100 initState initState 0 baseSnapshot).rowInputRate = [] ∧
    (pollSuccess (1/5) 100 initState initState 0 baseSnapshot).byteInputRate = [] ∧
    (pollSuccess (1/5) 100 initState initState 0 baseSnapshot).perWorkerCpuTimeRate = [] ∧
    (pollSuccess (1/5) 100 initState initState 0 baseSnapshot).runningQueries
      = [baseSnapshot.runningQueries] ∧
    (pollSuccess (1/5) 100 initState initState 0 baseSnapshot).queuedQueries
      = [baseSnapshot.queuedQueries] ∧
    (pollSuccess (1/5) 100 initState initState 0 baseSnapshot).blockedQueries
      = [baseSnapshot.blockedQueries] ∧
    (pollSuccess (1/5) 100 initState initState 0 baseSnapshot).activeWorkers
      = [baseSnapshot.activeWorkers] ∧
    (pollSuccess (1/5) 100 initState initState 0 baseSnapshot).runningDrivers
      = [baseSnapshot.runningDrivers] ∧
    (pollSuccess (1/5) 100 initState initState 0 baseSnapshot).reservedMemory
      = [baseSnapshot.reservedMemory] :=
  claim_C4 (1/5) 100 0 baseSnapshot (by decide)

/-- Claim C9: on every successful poll the three rate series are
replaced wholesale with arrays precomputed from the closure-captured
state, not derived from the then-current series state; in particular a
successful poll handled with the previous-snapshot state absent assigns
all three rate series a fresh empty array, discarding any samples the
store's series held. -/
theorem claim_C9 (α : ℚ) (L : ℕ) (c s s' : HUDState) (now : ℤ) (cs : ClusterState) :
    ((pollSuccess α L c s now cs).rowInputRate = (pollSuccess α L c s' now cs).rowInputRate ∧
     (pollSuccess α L c s now cs).byteInputRate = (pollSuccess α L c s' now cs).byteInputRate ∧
     (pollSuccess α L c s now cs).perWorkerCpuTimeRate
       = (pollSuccess α L c s' now cs).perWorkerCpuTimeRate) ∧
    (c.lastRefresh = none →
      (pollSuccess α L c s now cs).rowInputRate = [] ∧
      (pollSuccess α L c s now cs).byteInputRate = [] ∧
      (pollSuccess α L c s now cs).perWorkerCpuTimeRate = []) := by
  refine ⟨⟨rfl, rfl, rfl⟩, ?_⟩
  intro h
  refine ⟨?_, ?_, ?_⟩ <;> simp [pollSuccess, newRates, h]

theorem claim_C9_witness :
    (pollSuccess (1/5) 100 initState { initState with rowInputRate := [JVal.num 7] }
        0 baseSnapshot).rowInputRate = [] :=
  ((claim_C9 (1/5) 100 initState { initState with rowInputRate := [JVal.num 7] }
      initState 0 baseSnapshot).2 rfl).1

/-- Claim C1: for every successful poll with a previous snapshot
present (and positive elapsed time), the computed row input rate equals
`(current.totalInputRows - previous.totalInputRows)` divided by the
elapsed seconds since the previous poll, and symmetrically the byte
rate from `totalInputBytes`; when the rate series is empty the computed
value is emitted unsmoothed as the new sample. -/
theorem claim_C1 (α : ℚ) (L : ℕ) (c : HUDState) (cs : ClusterState) (t0 now : ℤ)
    (p pb r rb : ℚ)
    (hlr : c.lastRefresh = some t0)
    (hp : c.lastInputRows = JVal.num p) (hpb : c.lastInputBytes = JVal.num pb)
    (hr : cs.totalInputRows = JVal.num r) (hrb : cs.totalInputBytes = JVal.num rb)
    (ht : t0 < now) :
    rowRateRaw c t0 now cs = JVal.num ((r - p) / (((now : ℚ) - (t0 : ℚ)) / 1000)) ∧
    byteRateRaw c t0 now cs = JVal.num ((rb - pb) / (((now : ℚ) - (t0 : ℚ)) / 1000)) ∧
    (1 ≤ L → c.rowInputRate = [] →
      (pollSuccess α L c c now cs).rowInputRate
        = [JVal.num ((r - p) / (((now : ℚ) - (t0 : ℚ)) / 1000))]) := by
  have hcast : (t0 : ℚ) < (now : ℚ) := by exact_mod_cast ht
  have hpos : 0 < ((now : ℚ) - (t0 : ℚ)) / 1000 := by
    apply div_pos
    · linarith
    · norm_num
  have hne : ((now : ℚ) - (t0 : ℚ)) / 1000 ≠ 0 := ne_of_gt hpos
  have h1 : rowRateRaw c t0 now cs
      = JVal.num ((r - p) / (((now : ℚ) - (t0 : ℚ)) / 1000)) := by
    simp only [rowRateRaw, secsSinceRefresh, hp, hr, jsSub_num]
    exact jsDiv_num_of_ne _ hne
  have h2 : byteRateRaw c t0 now cs
      = JVal.num ((rb - pb) / (((now : ℚ) - (t0 : ℚ)) / 1000)) := by
    simp only [byteRateRaw, secsSinceRefresh, hpb, hrb, jsSub_num]
    exact jsDiv_num_of_ne _ hne
  refine ⟨h1, h2, ?_⟩
  intro hL h0
  have h3 : (pollSuccess α L c c now cs).rowInputRate
      = addExponentiallyWeightedToHistory α L (rowRateRaw c t0 now cs) c.rowInputRate := by
    simp [pollSuccess, newRates, hlr]
  rw [h3, h0, h1]
  simp [addExponentiallyWeightedToHistory, lastN_singleton hL]

theorem claim_C1_witness :
    rowRateRaw c1hud 0 1000 c1cs = JVal.num 500 ∧
    byteRateRaw c1hud 0 1000 c1cs = JVal.num 200000 ∧
    (pollSuccess (1/5) 100 c1hud c1hud 1000 c1cs).rowInputRate = [JVal.num 500] := by
  obtain ⟨h1, h2, h3⟩ :=
    claim_C1 (1/5) 100 c1hud c1cs 0 1000 1000 500000 1500 700000 rfl rfl rfl rfl rfl
      (by decide)
  refine ⟨?_, ?_, ?_⟩
  · rw [h1]; norm_num
  · rw [h2]; norm_num
  · rw [h3 (by decide) rfl]; norm_num

theorem claim_C2_counterexample :
    ¬ ((pollSuccess (1/5) 100 hud2 hud2 1000 cs2).perWorkerCpuTimeRate.length
        = hud2.perWorkerCpuTimeRate.length) := by decide

/-- Claim C2 (amended): with a previous snapshot present and
`activeWorkers = 0`, `refreshLoop` computes the per-worker CPU quotient
anyway: the raw value is non-finite (`±Infinity` or `NaN`) and a sample
IS appended to the `perWorkerCpuTimeRate` series (its length grows by
one while below capacity), while the row and byte rates are computed as
usual. -/
theorem claim_C2 (α : ℚ) (L : ℕ) (c : HUDState) (cs : ClusterState) (t0 now : ℤ) (d : ℚ)
    (hlr : c.lastRefresh = some t0) (hw : cs.activeWorkers = JVal.num 0)
    (hcpu : jsSub cs.totalCpuTimeSecs c.lastCpuTime = JVal.num d)
    (hlen : c.perWorkerCpuTimeRate.length < L) :
    (pollSuccess α L c c now cs).perWorkerCpuTimeRate.length
      = c.perWorkerCpuTimeRate.length + 1 ∧
    (perWorkerCpuRateRaw c t0 now cs).isFinite = false ∧
    (pollSuccess α L c c now cs).rowInputRate
      = addExponentiallyWeightedToHistory α L (rowRateRaw c t0 now cs) c.rowInputRate ∧
    (pollSuccess α L c c now cs).byteInputRate
      = addExponentiallyWeightedToHistory α L (byteRateRaw c t0 now cs) c.byteInputRate := by
  refine ⟨?_, ?_, ?_, ?_⟩
  · have h1 : (pollSuccess α L c c now cs).perWorkerCpuTimeRate
        = addExponentiallyWeightedToHistory α L (perWorkerCpuRateRaw c t0 now cs)
            c.perWorkerCpuTimeRate := by
      simp [pollSuccess, newRates, hlr]
    rw [h1, addExponentiallyWeightedToHistory_length]
    omega
  · have h2 : perWorkerCpuRateRaw c t0 now cs
        = jsDiv (jsDiv (JVal.num d) (JVal.num 0)) (secsSinceRefresh t0 now) := by
      simp only [perWorkerCpuRateRaw, hw, hcpu]
    rw [h2, secsSinceRefresh]
    exact isFinite_jsDiv_nonFin _ _ (jsDiv_num_zero_cases d)
  · simp [pollSuccess, newRates, hlr]
  · simp [pollSuccess, newRates, hlr]

theorem claim_C2_witness :
    (pollSuccess (1/5) 100 hud2 hud2 1000 cs2).perWorkerCpuTimeRate.length
      = hud2.perWorkerCpuTimeRate.length + 1 ∧
    (perWorkerCpuRateRaw hud2 0 1000 cs2).isFinite = false ∧
    (pollSuccess (1/5) 100 hud2 hud2 1000 cs2).rowInputRate
      = addExponentiallyWeightedToHistory (1/5) 100 (rowRateRaw hud2 0 1000 cs2)
          hud2.rowInputRate ∧
    (pollSuccess (1/5) 100 hud2 hud2 1000 cs2).byteInputRate
      = addExponentiallyWeightedToHistory (1/5) 100 (byteRateRaw hud2 0 1000 cs2)
          hud2.byteInputRate :=
  claim_C2 (1/5) 100 hud2 cs2 0 1000 2 rfl rfl
    (by show jsSub (JVal.num 12) (JVal.num 10) = JVal.num 2
        rw [jsSub_num]; norm_num)
    (by decide)

theorem claim_C3_counterexample :
    JVal.posInf ∈ (pollSuccess (1/5) 100 hud3 hud3 1000 cs3).rowInputRate := by
  have h1 : (pollSuccess (1/5) 100 hud3 hud3 1000 cs3).rowInputRate
      = addExponentiallyWeightedToHistory (1/5) 100 (rowRateRaw hud3 1000 1000 cs3) [] := rfl
  have h2 : rowRateRaw hud3 1000 1000 cs3 = JVal.posInf := by
    show jsDiv (jsSub (JVal.num 1500) (JVal.num 1000)) (secsSinceRefresh 1000 1000)
      = JVal.posInf
    rw [jsSub_num, secsSinceRefresh]
    norm_num [jsDiv, JVal.toNumber]
  rw [h1, h2]
  show JVal.posInf ∈ addExponentiallyWeightedToHistory (1/5) 100 JVal.posInf []
  simp [addExponentiallyWeightedToHistory, lastN]

/-- Claim C3 (amended): with a previous snapshot present and zero
elapsed time since the previous poll, `refreshLoop` performs the
division by zero anyway: the computed row rate is non-finite
(`±Infinity` or `NaN`) and a sample IS appended to the rate series
(its length grows by one while below capacity). -/
theorem claim_C3 (α : ℚ) (L : ℕ) (c : HUDState) (cs : ClusterState) (t0 : ℤ) (d : ℚ)
    (hlr : c.lastRefresh = some t0)
    (hd : jsSub cs.totalInputRows c.lastInputRows = JVal.num d)
    (hlen : c.rowInputRate.length < L) :
    (pollSuccess α L c c t0 cs).rowInputRate.length = c.rowInputRate.length + 1 ∧
    (rowRateRaw c t0 t0 cs).isFinite = false := by
  constructor
  · have h1 : (pollSuccess α L c c t0 cs).rowInputRate
        = addExponentiallyWeightedToHistory α L (rowRateRaw c t0 t0 cs) c.rowInputRate := by
      simp [pollSuccess, newRates, hlr]
    rw [h1, addExponentiallyWeightedToHistory_length]
    omega
  · have h0 : secsSinceRefresh t0 t0 = JVal.num 0 := by
      simp [secsSinceRefresh]
    have h2 : rowRateRaw c t0 t0 cs = jsDiv (JVal.num d) (JVal.num 0) := by
      simp only [rowRateRaw, hd, h0]
    rw [h2]
    rcases jsDiv_num_zero_cases d with h | h | h <;> rw [h] <;> rfl

theorem claim_C3_witness :
    (pollSuccess (1/5) 100 hud3 hud3 1000 cs3).rowInputRate.length
      = hud3.rowInputRate.length + 1 ∧
    (rowRateRaw hud3 1000 1000 cs3).isFinite = false :=
  claim_C3 (1/5) 100 hud3 cs3 1000 500 rfl
    (by show jsSub (JVal.num 1500) (JVal.num 1000) = JVal.num 500
        rw [jsSub_num]; norm_num)
    (by decide)

/-- Claim C5: on a fetch failure no series and no poll-state field is
mutated; the next fetch is scheduled with the same fixed 1000 ms delay
the success path uses (no backoff), retries leave the state unchanged
for any number of consecutive failures (no retry limit), and a
successful poll after a failed one computes exactly what it would have
computed against the last successful poll's baseline. -/
theorem claim_C5 (α : ℚ) (L : ℕ) (st : SysState) (t3 : ℤ) (cs3t : ClusterState) :
    (failStep st).hud = st.hud ∧
    (failStep st).timers.pending.map Prod.snd
      = (clearPending st.timers.current st.timers.pending).map Prod.snd ++ [1000] ∧
    (succStep α L st t3 cs3t).timers.pending.map Prod.snd
      = (clearPending st.timers.current st.timers.pending).map Prod.snd ++ [1000] ∧
    (succStep α L (failStep st) t3 cs3t).hud = (succStep α L st t3 cs3t).hud ∧
    ∀ n : ℕ, (failStep^[n] st).hud = st.hud := by
  refine ⟨rfl, ?_, ?_, rfl, ?_⟩
  · simp [failStep, resetTimer]
  · simp [succStep, resetTimer]
  · intro n
    induction n with
    | zero => rfl
    | succ m ih =>
        rw [Function.iterate_succ_apply']
        exact ih

/-- Claim C7: the render throttle permits a redraw exactly when no
render has been recorded or at least 1000 ms have elapsed since the
last recorded one; a permitted render records the current time, so two
checks 200 ms apart yield true then false, and a check 1000 ms after
the first true yields true again. -/
theorem claim_C7 :
    (∀ (lr : Option ℤ) (now : ℤ),
        shouldRender lr now = true ↔ (lr = none ∨ ∃ t, lr = some t ∧ 1000 ≤ now - t)) ∧
    (∀ (lr : Option ℤ) (now : ℤ), shouldRender lr now = true → renderCheck lr now = some now) ∧
    (∀ t0 : ℤ,
      shouldRender none t0 = true ∧
      renderCheck none t0 = some t0 ∧
      shouldRender (renderCheck none t0) (t0 + 200) = false ∧
      renderCheck (renderCheck none t0) (t0 + 200) = some t0 ∧
      shouldRender (renderCheck (renderCheck none t0) (t0 + 200)) (t0 + 1000) = true) := by
  refine ⟨?_, ?_, ?_⟩
  · intro lr now
    cases lr with
    | none => simp [shouldRender]
    | some t => simp [shouldRender]
  · intro lr now h
    simp [renderCheck, h]
  · intro t0
    have h1 : renderCheck none t0 = some t0 := rfl
    have hf : shouldRender (some t0) (t0 + 200) = false := by
      simp only [shouldRender, decide_eq_false_iff_not]
      omega
    have h2 : renderCheck (some t0) (t0 + 200) = some t0 := by
      simp [renderCheck, hf]
    have h3 : shouldRender (some t0) (t0 + 1000) = true := by
      simp only [shouldRender, decide_eq_true_eq]
      omega
    rw [h1]
    exact ⟨rfl, rfl, hf, h2, by rw [h2]; exact h3⟩

theorem claim_C7_witness : renderCheck none 5 = some 5 :=
  claim_C7.2.1 none 5 rfl

/-- Claim C8: starting from the mounted view's timer state, every
sequence of timer events (resetTimer calls, refreshLoop entries, timer
firings, unmount cleanup) leaves at most one continuation timer
pending at any instant. -/
theorem claim_C8 (evs : List TEvent) : ((trun evs initTimer).pending).length ≤ 1 := by
  have hclear : ∀ ts : TimerSys, InvT ts → clearPending ts.current ts.pending = [] := by
    intro ts h
    rcases h with h | ⟨i, d, hp, hc⟩
    · rw [h]; cases ts.current <;> simp [clearPending]
    · rw [hp, hc]; simp [clearPending]
  have hstep : ∀ (ts : TimerSys) (e : TEvent), InvT ts → InvT (tstep ts e) := by
    intro ts e h
    cases e with
    | reset =>
        right
        exact ⟨ts.nextId, 1000, by simp [tstep, resetTimer, hclear ts h], rfl⟩
    | enter =>
        left
        simp [tstep, hclear ts h]
    | fire i =>
        left
        rcases h with h | ⟨j, d, hp, hc⟩
        · rw [show tstep ts (TEvent.fire i)
              = { ts with pending := clearPending ts.current (ts.pending.filter
                  (fun en => en.1 != i)) } from rfl]
          rw [h]
          cases ts.current <;> simp [clearPending]
        · rw [show tstep ts (TEvent.fire i)
              = { ts with pending := clearPending ts.current (ts.pending.filter
                  (fun en => en.1 != i)) } from rfl]
          rw [hp, hc]
          by_cases hji : j = i
          · subst hji; simp [clearPending]
          · simp [clearPending, hji]
    | cleanup =>
        left
        simp [tstep, hclear ts h]
  have hrun : ∀ (l : List TEvent) (ts : TimerSys), InvT ts → InvT (trun l ts) := by
    intro l
    induction l with
    | nil => intro ts h; exact h
    | cons e tl ih =>
        intro ts h
        exact ih (tstep ts e) (hstep ts e h)
  have h := hrun evs initTimer (Or.inl rfl)
  rcases h with h | ⟨i, d, hp, _⟩
  · simp [h]
  · simp [hp]

/-- Claim C10: the sample appended to the reserved-memory series is
read from the snapshot field named `reservedMemory` and is independent
of the data contract's `reservedMemoryBytes` field; a snapshot carrying
the gauge only under `reservedMemoryBytes` therefore appends a no-data
(`undefined`-derived) sample on every poll. -/
theorem claim_C10 (α : ℚ) (L : ℕ) (c s : HUDState) (now : ℤ) (cs : ClusterState) (b : JVal)
    (hL : 1 ≤ L) :
    (pollSuccess α L c s now { cs with reservedMemoryBytes := b }).reservedMemory
      = (pollSuccess α L c s now cs).reservedMemory ∧
    (pollSuccess α L c s now cs).reservedMemory
      = addExponentiallyWeightedToHistory α L cs.reservedMemory s.reservedMemory ∧
    (cs.reservedMemory = JVal.undef →
      ∃ v, ((pollSuccess α L c s now cs).reservedMemory).getLast? = some v ∧
        v.isNoData = true) := by
  refine ⟨rfl, rfl, ?_⟩
  intro hu
  show ∃ v, (addExponentiallyWeightedToHistory α L cs.reservedMemory
      s.reservedMemory).getLast? = some v ∧ v.isNoData = true
  rw [hu]
  cases hlast : s.reservedMemory.getLast? with
  | none =>
      refine ⟨JVal.undef, ?_, rfl⟩
      simp only [addExponentiallyWeightedToHistory, hlast]
      exact getLast?_lastN_append hL _ _
  | some w =>
      have hmul : jsAdd (jsMul (JVal.num α) JVal.undef) (jsMul (JVal.num (1 - α)) w)
          = JVal.nan := by
        rw [jsMul_num_undef]
        exact jsAdd_nan _
      refine ⟨JVal.nan, ?_, rfl⟩
      simp only [addExponentiallyWeightedToHistory, hlast, hmul]
      exact getLast?_lastN_append hL _ _

theorem claim_C10_witness :
    (pollSuccess (1/5) 100 initState initState 0
        { cs10 with reservedMemoryBytes := JVal.num 42 }).reservedMemory
      = (pollSuccess (1/5) 100 initState initState 0 cs10).reservedMemory ∧
    ∃ v, ((pollSuccess (1/5) 100 initState initState 0 cs10).reservedMemory).getLast?
        = some v ∧ v.isNoData = true := by
  obtain ⟨h1, _h2, h3⟩ :=
    claim_C10 (1/5) 100 initState initState 0 cs10 (JVal.num 42) (by decide)
  exact ⟨h1, h3 rfl⟩
